import Mathlib

/-!
Verification of the scale-to-zero container service orchestration code.

The definitions below are shallow embeddings of the TypeScript sources:
* `lib/lambdas/autoscaler.ts` (and its lock-protected revision) — compute fleet controller,
* `lib/wrapper/src/lib/lock.ts` — lease store,
* `lib/wrapper/src/app/api/[serviceName]/route.ts` — launch orchestrator,
* `lib/proxy/health-check.ts` and `lib/service/health-check.ts` — health monitors.
Side-effecting calls (ECS, Auto Scaling, DynamoDB, HTTP probes) are modelled as
events in an explicit trace; their outcomes are supplied by oracle parameters.
-/

namespace STZ

/-! ## Compute fleet controller: desired capacity
    Source: `calculateDesiredCapacity` in `lib/lambdas/autoscaler.ts`
    (identical in the lock-protected revision).  `Math.ceil(t / 3)` on a
    natural number `t` is `(t + 2) / 3` in natural division. -/

def MAX_TASKS_PER_INSTANCE : Nat := 3

def calculateDesiredCapacity (totalTasks currentInstances emptyInstances : Nat) : Nat :=
  if totalTasks = 0 then 0
  else
    let requiredInstances :=
      (totalTasks + (MAX_TASKS_PER_INSTANCE - 1)) / MAX_TASKS_PER_INSTANCE
    if currentInstances < requiredInstances then
      requiredInstances
    else if 0 < emptyInstances ∧
        totalTasks ≤ (currentInstances - emptyInstances) * MAX_TASKS_PER_INSTANCE then
      max requiredInstances (currentInstances - emptyInstances)
    else
      currentInstances

/-! ## Lease store
    Source: `acquireLock` in `lib/wrapper/src/lib/lock.ts`.  The DynamoDB
    conditional put `attribute_not_exists(serviceName) OR #ttl < :now` is a
    single atomic step: we model the store as a map from keys to records and
    `acquireLock` as one transition on it. -/

def LOCK_TTL_SECONDS : Nat := 15 * 60

structure LockRecord where
  lockedAt : Nat
  ttl : Nat
deriving Repr, DecidableEq

def LockStore := String → Option LockRecord

structure LockResult where
  acquired : Bool
  reason : Option String
deriving Repr, DecidableEq

def acquireLock (store : LockStore) (key : String) (now : Nat) :
    LockResult × LockStore :=
  let conditionHolds :=
    match store key with
    | none => true
    | some r => decide (r.ttl < now)
  if conditionHolds then
    ({ acquired := true, reason := none },
     fun k => if k = key then some ⟨now, now + LOCK_TTL_SECONDS⟩ else store k)
  else
    ({ acquired := false, reason := some "Service launch already in progress" }, store)

def releaseLock (store : LockStore) (key : String) : LockStore :=
  fun k => if k = key then none else store k

/-- C1: the desired-capacity policy.  With `MaxUnitsPerHost = 3`, for every
total task count `t`, host count `n ≥ 1` and empty host count `e ≤ n`:
the result is `0` when `t = 0`; otherwise `r = ceil(t / 3)` when `r > n`;
otherwise `max r (n - e)` when `e > 0` and `t ≤ (n - e) * 3`; and otherwise
`n` unchanged. -/
theorem calculateDesiredCapacity_policy (t n e : Nat) (hn : 1 ≤ n) (he : e ≤ n) :
    (t = 0 → calculateDesiredCapacity t n e = 0) ∧
    (t ≠ 0 → n < (t + 2) / 3 → calculateDesiredCapacity t n e = (t + 2) / 3) ∧
    (t ≠ 0 → (t + 2) / 3 ≤ n → 0 < e → t ≤ (n - e) * 3 →
      calculateDesiredCapacity t n e = max ((t + 2) / 3) (n - e)) ∧
    (t ≠ 0 → (t + 2) / 3 ≤ n → ¬(0 < e ∧ t ≤ (n - e) * 3) →
      calculateDesiredCapacity t n e = n) := by
  unfold calculateDesiredCapacity MAX_TASKS_PER_INSTANCE
  refine ⟨fun h0 => by simp [h0], fun h0 hlt => ?_, fun h0 hle h1 h2 => ?_, fun h0 hle hnot => ?_⟩
  · simp only [if_neg h0]
    rw [if_pos]
    omega
  · simp only [if_neg h0]
    rw [if_neg (by omega), if_pos ⟨h1, h2⟩]
  · simp only [if_neg h0]
    rw [if_neg (by omega), if_neg hnot]

/-- Witness for C1 at the spec's Scenario D: 2 tasks, 3 hosts, 1 empty. -/
theorem calculateDesiredCapacity_policy_witness :
    calculateDesiredCapacity 2 3 1 = 2 := by
  have h := (calculateDesiredCapacity_policy 2 3 1 (by decide) (by decide)).2.2.1
    (by decide) (by decide) (by decide) (by decide)
  simpa using h

/-- C2: the lease conditional write.  `acquire(key)` at time `now` grants
(creating a record with expiry `now + TTL`) iff no record exists for `key`
or the existing record's expiry is in the past; on conflict it returns
`acquired = false` with the in-progress reason and leaves the store
unchanged; hence a second serialized acquire of the same key before the
expiry has passed is refused — at most one concurrent acquire is granted. -/
theorem acquireLock_spec (store : LockStore) (k : String) (now : Nat) :
    ((acquireLock store k now).1.acquired = true ↔
      store k = none ∨ ∃ r, store k = some r ∧ r.ttl < now) ∧
    ((acquireLock store k now).1.acquired = true →
      (acquireLock store k now).2 k = some ⟨now, now + LOCK_TTL_SECONDS⟩) ∧
    ((acquireLock store k now).1.acquired = false →
      (acquireLock store k now).1.reason = some "Service launch already in progress" ∧
      (acquireLock store k now).2 = store) ∧
    (∀ now2, (acquireLock store k now).1.acquired = true →
      now2 ≤ now + LOCK_TTL_SECONDS →
      (acquireLock (acquireLock store k now).2 k now2).1.acquired = false) := by
  have h2 : (acquireLock store k now).1.acquired = true →
      (acquireLock store k now).2 k = some ⟨now, now + LOCK_TTL_SECONDS⟩ := by
    unfold acquireLock
    cases hs : store k with
    | none => intro _; simp
    | some r => by_cases hexp : r.ttl < now <;> simp [hexp]
  refine ⟨?_, h2, ?_, ?_⟩
  · unfold acquireLock
    cases hs : store k with
    | none => simp
    | some r => by_cases hexp : r.ttl < now <;> simp [hexp]
  · unfold acquireLock
    cases hs : store k with
    | none => simp
    | some r => by_cases hexp : r.ttl < now <;> simp [hexp]
  · intro now2 hacq hle
    have hrec := h2 hacq
    generalize hg : (acquireLock store k now).2 = s2 at hrec ⊢
    unfold acquireLock
    rw [hrec]
    simp [Nat.not_lt.mpr hle]

/-- Witness for C2: a fresh acquire of "demo" at t = 100 is granted, and a
second acquire at t = 200 (before the expiry 100 + 900) is refused. -/
theorem acquireLock_spec_witness :
    (acquireLock (acquireLock (fun _ => none) "demo" 100).2 "demo" 200).1.acquired = false := by
  exact (acquireLock_spec (fun _ => none) "demo" 100).2.2.2 200 (by rfl) (by decide)

/-! ## Health monitors
    Sources: `lib/proxy/health-check.ts` (retry-burst variant: a probe batch is
    `performHealthCheckWithRetry`, up to 5 attempts, and `runHealthCheckWithBackoff`
    counts wholly-failed batches) and `lib/service/health-check.ts`
    (exponential-backoff variant: the counter counts individual failed probes
    inside a `backOff` call).  A probe outcome `true` means an HTTP 2xx/3xx
    response within the timeout. -/

structure MonitorState where
  consecutiveFailures : Nat
  isShuttingDown : Bool
deriving Repr, DecidableEq

def initialMonitorState : MonitorState := ⟨0, false⟩

/-- `performHealthCheckWithRetry`: up to 5 probe attempts, the batch succeeds
if any attempt succeeds. -/
def performHealthCheckWithRetry (probe : Nat → Bool) : Bool :=
  (List.range 5).any probe

/-- `runHealthCheckWithBackoff` of `lib/proxy/health-check.ts`: one batch
outcome updates the consecutive-failure counter; reaching `maxFailures`
triggers `shutdown()` (modelled by the `isShuttingDown` flag). -/
def runHealthCheckWithBackoff (maxFailures : Nat) (batchHealthy : Bool)
    (st : MonitorState) : MonitorState × Bool :=
  if batchHealthy then
    ({ st with consecutiveFailures := 0 }, true)
  else if maxFailures ≤ st.consecutiveFailures + 1 then
    ({ consecutiveFailures := st.consecutiveFailures + 1, isShuttingDown := true }, false)
  else
    ({ st with consecutiveFailures := st.consecutiveFailures + 1 }, false)

/-- The `startHealthChecks` loop (after the grace period) over a finite list
of batch outcomes; the loop exits once shutting down. -/
def runMonitor (maxFailures : Nat) : MonitorState → List Bool → MonitorState
  | st, [] => st
  | st, b :: bs =>
      if st.isShuttingDown then st
      else runMonitor maxFailures (runHealthCheckWithBackoff maxFailures b st).1 bs

/-- `lib/service/health-check.ts`: the attempts inside one `backOff` call.
`probe i` is the i-th attempt's outcome, `cf` the carried-in counter, `left`
the remaining allowed attempts (`numOfAttempts = maxFailures`).  After a
failed attempt the library consults `retry()`, which stops once
`consecutiveFailures >= maxFailures`; exhausting the attempts rethrows. -/
def backOffAttempts (maxFailures : Nat) (probe : Nat → Bool) :
    Nat → Nat → Nat → Nat × Bool
  | _, cf, 0 => (cf, false)
  | i, cf, left + 1 =>
      if probe i then (0, true)
      else
        if left = 0 then (cf + 1, false)
        else if maxFailures ≤ cf + 1 then (cf + 1, false)
        else backOffAttempts maxFailures probe (i + 1) (cf + 1) left

/-- `runHealthCheckWithBackoff` of `lib/service/health-check.ts`: run one
`backOff` call; if it rethrows with the counter at the threshold, shut down. -/
def runHealthCheckBackOffVariant (maxFailures : Nat) (probe : Nat → Bool)
    (st : MonitorState) : MonitorState × Bool :=
  let r := backOffAttempts maxFailures probe 0 st.consecutiveFailures maxFailures
  if r.2 then
    ({ st with consecutiveFailures := 0 }, true)
  else if maxFailures ≤ r.1 then
    ({ consecutiveFailures := r.1, isShuttingDown := true }, false)
  else
    ({ st with consecutiveFailures := r.1 }, false)

lemma runMonitor_cons (m : Nat) (b : Bool) (bs : List Bool) (st : MonitorState) :
    runMonitor m st (b :: bs) =
      if st.isShuttingDown = true then st
      else runMonitor m (runHealthCheckWithBackoff m b st).1 bs := rfl

lemma runHealthCheckWithBackoff_fail_small (m cf : Nat) (h : cf + 1 < m) :
    runHealthCheckWithBackoff m false (⟨cf, false⟩ : MonitorState) =
      (⟨cf + 1, false⟩, false) := by
  simp only [runHealthCheckWithBackoff]
  rw [if_neg (by simp), if_neg (by omega)]

lemma runHealthCheckWithBackoff_fail_threshold (m cf : Nat) (h : m ≤ cf + 1) :
    runHealthCheckWithBackoff m false (⟨cf, false⟩ : MonitorState) =
      (⟨cf + 1, true⟩, false) := by
  simp only [runHealthCheckWithBackoff]
  rw [if_neg (by simp), if_pos h]

lemma runMonitor_replicate_false (m : Nat) :
    ∀ k cf, cf + k < m →
      runMonitor m ⟨cf, false⟩ (List.replicate k false) = ⟨cf + k, false⟩ := by
  intro k
  induction k with
  | zero => intro cf _; simp [runMonitor]
  | succ k ih =>
      intro cf h
      rw [List.replicate_succ, runMonitor_cons, if_neg (by simp),
        runHealthCheckWithBackoff_fail_small m cf (by omega)]
      have hih := ih (cf + 1) (by omega)
      calc runMonitor m ((⟨cf + 1, false⟩, false) : MonitorState × Bool).1
              (List.replicate k false)
          = runMonitor m ⟨cf + 1, false⟩ (List.replicate k false) := rfl
        _ = ⟨cf + 1 + k, false⟩ := hih
        _ = ⟨cf + (k + 1), false⟩ := by congr 1; omega

lemma backOffAttempts_all_fail (m : Nat) (probe : Nat → Bool)
    (hp : ∀ i, probe i = false) :
    ∀ left i cf, cf + left = m →
      backOffAttempts m probe i cf left = (m, false) := by
  intro left
  induction left with
  | zero =>
      intro i cf h
      unfold backOffAttempts
      simp only [Prod.mk.injEq, and_true]
      omega
  | succ left ih =>
      intro i cf h
      unfold backOffAttempts
      rw [hp i, if_neg (by simp)]
      by_cases hl : left = 0
      · subst hl
        rw [if_pos rfl]
        simp only [Prod.mk.injEq, and_true]
        omega
      · rw [if_neg hl, if_neg (by omega)]
        exact ih (i + 1) (cf + 1) (by omega)

lemma backOffAttempts_fail_then_succeed (m : Nat) :
    ∀ left cf, 1 ≤ left → cf + left = m →
      backOffAttempts m (fun j => j == m - 1) cf cf left = (0, true) := by
  intro left
  induction left with
  | zero => intro cf h1 _; omega
  | succ left ih =>
      intro cf _ h
      by_cases hl : left = 0
      · subst hl
        have hb : (cf == m - 1) = true := by
          simp only [beq_iff_eq]
          omega
        unfold backOffAttempts
        rw [hb, if_pos rfl]
      · have hb : (cf == m - 1) = false := by
          simp only [beq_eq_false_iff_ne, ne_eq]
          omega
        unfold backOffAttempts
        rw [hb, if_neg (by simp), if_neg hl, if_neg (by omega)]
        exact ih (cf + 1) (by omega) (by omega)

lemma runMonitor_absorb (m : Nat) (st : MonitorState)
    (h : st.isShuttingDown = true) :
    ∀ l, runMonitor m st l = st := by
  intro l
  cases l with
  | nil => rfl
  | cons b bs => rw [runMonitor_cons, if_pos h]

lemma runMonitor_append (m : Nat) :
    ∀ (l1 l2 : List Bool) (st : MonitorState),
      runMonitor m st (l1 ++ l2) = runMonitor m (runMonitor m st l1) l2 := by
  intro l1
  induction l1 with
  | nil => intro l2 st; rfl
  | cons b bs ih =>
      intro l2 st
      rw [List.cons_append, runMonitor_cons, runMonitor_cons]
      by_cases h : st.isShuttingDown = true
      · rw [if_pos h, if_pos h, runMonitor_absorb m st h]
      · rw [if_neg h, if_neg h, ih]

/-- C7: health-threshold semantics.  For a monitor run after its grace period
with failure threshold `m ≥ 1`: (proxy variant, `lib/proxy/health-check.ts`)
exactly `m - 1` consecutive wholly-failed probe batches never trigger
self-termination, the batch that brings the consecutive-failure count to
exactly `m` triggers self-termination, and any successful batch resets the
count to 0; (service variant, `lib/service/health-check.ts`, where the
counter counts individual probes inside a `backOff` call) `m - 1` consecutive
failed probes followed by a success yield a healthy, reset monitor, a fully
failed call drives the count to `m` and shuts down, and any healthy return
has the count reset to 0. -/
theorem healthMonitor_threshold (m : Nat) (hm : 1 ≤ m) :
    (runMonitor m initialMonitorState (List.replicate (m - 1) false)).isShuttingDown = false ∧
    (runMonitor m initialMonitorState (List.replicate m false)).isShuttingDown = true ∧
    (∀ st, (runHealthCheckWithBackoff m true st).1.consecutiveFailures = 0) ∧
    runHealthCheckBackOffVariant m (fun j => j == m - 1) initialMonitorState =
      (⟨0, false⟩, true) ∧
    (runHealthCheckBackOffVariant m (fun _ => false) initialMonitorState).1.isShuttingDown
      = true ∧
    (∀ st probe, (runHealthCheckBackOffVariant m probe st).2 = true →
      (runHealthCheckBackOffVariant m probe st).1.consecutiveFailures = 0) := by
  obtain ⟨m', rfl⟩ : ∃ m2, m = m2 + 1 := ⟨m - 1, by omega⟩
  have hrep : runMonitor (m' + 1) initialMonitorState (List.replicate m' false) =
      ⟨m', false⟩ := by
    have := runMonitor_replicate_false (m' + 1) m' 0 (by omega)
    simpa [initialMonitorState] using this
  refine ⟨?_, ?_, ?_, ?_, ?_, ?_⟩
  · simp only [Nat.add_sub_cancel]
    rw [hrep]
  · have hsplit : List.replicate (m' + 1) false =
        List.replicate m' false ++ [false] := by
      rw [← List.replicate_succ']
    rw [hsplit, runMonitor_append, hrep, runMonitor_cons, if_neg (by simp),
      runHealthCheckWithBackoff_fail_threshold (m' + 1) m' (by omega)]
    rfl
  · intro st
    simp [runHealthCheckWithBackoff]
  · have hb := backOffAttempts_fail_then_succeed (m' + 1) (m' + 1) 0 (by omega) (by omega)
    simp only [runHealthCheckBackOffVariant, initialMonitorState] at hb ⊢
    rw [hb]
    rfl
  · have hb := backOffAttempts_all_fail (m' + 1) (fun _ => false) (fun _ => rfl)
      (m' + 1) 0 0 (by omega)
    simp only [runHealthCheckBackOffVariant, initialMonitorState] at hb ⊢
    rw [hb]
    simp
  · intro st probe htrue
    simp only [runHealthCheckBackOffVariant] at htrue ⊢
    by_cases h : (backOffAttempts (m' + 1) probe 0 st.consecutiveFailures (m' + 1)).2 = true
    · simp [h]
    · rw [if_neg h] at htrue
      split at htrue <;> simp at htrue

/-- Witness for C7 at the default threshold 5: four consecutive failed
batches leave the proxy monitor alive, the fifth shuts it down. -/
theorem healthMonitor_threshold_witness :
    (runMonitor 5 initialMonitorState (List.replicate 4 false)).isShuttingDown = false ∧
    (runMonitor 5 initialMonitorState (List.replicate 5 false)).isShuttingDown = true :=
  ⟨(healthMonitor_threshold 5 (by decide)).1, (healthMonitor_threshold 5 (by decide)).2.1⟩

/-! ## Compute fleet controller: evaluation and protection
    Source: `evaluateAndScale`, `getInstanceTaskCounts`, `updateInstanceProtection` in
    `lib/lambdas/autoscaler.ts` (identical in the lock-protected revision).
    A task is modelled by its `containerInstanceArn` placement, an instance
    detail by its ARN and optional EC2 id; ECS/Auto Scaling calls that mutate
    the fleet are recorded as `FleetCmd` values in order. -/

structure TaskDetail where
  containerInstanceArn : Option String
deriving Repr, DecidableEq

structure InstanceDetail where
  containerInstanceArn : Option String
  ec2InstanceId : Option String
deriving Repr, DecidableEq

inductive FleetCmd where
  | setInstanceProtection (instanceIds : List String) (protectedFromScaleIn : Bool)
  | setDesiredCapacity (n : Nat)
deriving Repr, DecidableEq

/-- The per-instance count built by `getInstanceTaskCounts`: lookups use
`instanceTaskCounts.get(arn) || 0`, so the count of an ARN is the number of
described tasks placed on it. -/
def taskCountOf (tasks : List TaskDetail) (arn : String) : Nat :=
  (tasks.filter (fun t => t.containerInstanceArn == some arn)).length

/-- The body of `updateInstanceProtection`'s loop for the protected list:
skip instances without an EC2 id or ARN; protect those with `taskCount > 0`. -/
def protSelector (tasks : List TaskDetail) (d : InstanceDetail) : Option String :=
  match d.ec2InstanceId, d.containerInstanceArn with
  | some id, some arn => if 0 < taskCountOf tasks arn then some id else none
  | _, _ => none

/-- The body of `updateInstanceProtection`'s loop for the unprotected list. -/
def unprotSelector (tasks : List TaskDetail) (d : InstanceDetail) : Option String :=
  match d.ec2InstanceId, d.containerInstanceArn with
  | some id, some arn => if 0 < taskCountOf tasks arn then none else some id
  | _, _ => none

def instancesToProtect (tasks : List TaskDetail) (details : List InstanceDetail) :
    List String :=
  details.filterMap (protSelector tasks)

def instancesToUnprotect (tasks : List TaskDetail) (details : List InstanceDetail) :
    List String :=
  details.filterMap (unprotSelector tasks)

/-- `updateInstanceProtection`: one `SetInstanceProtection` call per nonempty
list, protected first. -/
def updateInstanceProtection (tasks : List TaskDetail) (details : List InstanceDetail) :
    List FleetCmd :=
  (if 0 < (instancesToProtect tasks details).length then
    [FleetCmd.setInstanceProtection (instancesToProtect tasks details) true]
  else []) ++
  (if 0 < (instancesToUnprotect tasks details).length then
    [FleetCmd.setInstanceProtection (instancesToUnprotect tasks details) false]
  else [])

/-- `evaluateAndScale`: with no instances, request `ceil(tasks / 3)` if
positive; otherwise update protection first, then change capacity if the
computed desired capacity differs from the instance count. -/
def evaluateAndScale (tasks : List TaskDetail) (instances : List String)
    (details : List InstanceDetail) : List FleetCmd :=
  if instances.length = 0 then
    if 0 < (tasks.length + (MAX_TASKS_PER_INSTANCE - 1)) / MAX_TASKS_PER_INSTANCE then
      [FleetCmd.setDesiredCapacity
        ((tasks.length + (MAX_TASKS_PER_INSTANCE - 1)) / MAX_TASKS_PER_INSTANCE)]
    else []
  else
    updateInstanceProtection tasks details ++
    (if calculateDesiredCapacity tasks.length instances.length
          ((instances.filter (fun arn => taskCountOf tasks arn == 0)).length)
        ≠ instances.length then
      [FleetCmd.setDesiredCapacity
        (calculateDesiredCapacity tasks.length instances.length
          ((instances.filter (fun arn => taskCountOf tasks arn == 0)).length))]
    else [])

lemma protSelector_eq_some (tasks : List TaskDetail) (d : InstanceDetail) (id : String) :
    protSelector tasks d = some id ↔
      d.ec2InstanceId = some id ∧
        ∃ arn, d.containerInstanceArn = some arn ∧ 0 < taskCountOf tasks arn := by
  unfold protSelector
  cases hid : d.ec2InstanceId with
  | none => simp
  | some i =>
      cases harn : d.containerInstanceArn with
      | none => simp
      | some a =>
          by_cases hc : 0 < taskCountOf tasks a
          · simp [hc, eq_comm]
          · simp [hc]

lemma unprotSelector_eq_some (tasks : List TaskDetail) (d : InstanceDetail) (id : String) :
    unprotSelector tasks d = some id ↔
      d.ec2InstanceId = some id ∧
        ∃ arn, d.containerInstanceArn = some arn ∧ taskCountOf tasks arn = 0 := by
  unfold unprotSelector
  cases hid : d.ec2InstanceId with
  | none => simp
  | some i =>
      cases harn : d.containerInstanceArn with
      | none => simp
      | some a =>
          by_cases hc : 0 < taskCountOf tasks a
          · simp [hc]
            omega
          · simp [hc, eq_comm]
            omega

lemma mem_updateInstanceProtection (tasks : List TaskDetail)
    (details : List InstanceDetail) (c : FleetCmd)
    (hc : c ∈ updateInstanceProtection tasks details) :
    ∃ ids b, c = FleetCmd.setInstanceProtection ids b := by
  unfold updateInstanceProtection at hc
  rcases List.mem_append.mp hc with h | h
  · split at h
    · rw [List.mem_singleton] at h
      exact ⟨_, _, h⟩
    · simp at h
  · split at h
    · rw [List.mem_singleton] at h
      exact ⟨_, _, h⟩
    · simp at h

/-- C8: in every fleet evaluation with at least one host, the protected list
is exactly the EC2 ids of described hosts with at least one placed task, the
unprotected list exactly those with zero tasks, and the emitted command
sequence applies all protection commands strictly before any capacity
command. -/
theorem protection_assignment (tasks : List TaskDetail) (instances : List String)
    (details : List InstanceDetail) (hne : instances ≠ []) :
    (∀ id, id ∈ instancesToProtect tasks details ↔
      ∃ d ∈ details, d.ec2InstanceId = some id ∧
        ∃ arn, d.containerInstanceArn = some arn ∧ 0 < taskCountOf tasks arn) ∧
    (∀ id, id ∈ instancesToUnprotect tasks details ↔
      ∃ d ∈ details, d.ec2InstanceId = some id ∧
        ∃ arn, d.containerInstanceArn = some arn ∧ taskCountOf tasks arn = 0) ∧
    (∃ protCmds capCmds,
      evaluateAndScale tasks instances details = protCmds ++ capCmds ∧
      (∀ c ∈ protCmds, ∃ ids b, c = FleetCmd.setInstanceProtection ids b) ∧
      (∀ c ∈ capCmds, ∃ n, c = FleetCmd.setDesiredCapacity n)) := by
  refine ⟨?_, ?_, ?_⟩
  · intro id
    unfold instancesToProtect
    rw [List.mem_filterMap]
    constructor
    · rintro ⟨d, hd, hsel⟩
      exact ⟨d, hd, (protSelector_eq_some tasks d id).mp hsel⟩
    · rintro ⟨d, hd, hsel⟩
      exact ⟨d, hd, (protSelector_eq_some tasks d id).mpr hsel⟩
  · intro id
    unfold instancesToUnprotect
    rw [List.mem_filterMap]
    constructor
    · rintro ⟨d, hd, hsel⟩
      exact ⟨d, hd, (unprotSelector_eq_some tasks d id).mp hsel⟩
    · rintro ⟨d, hd, hsel⟩
      exact ⟨d, hd, (unprotSelector_eq_some tasks d id).mpr hsel⟩
  · refine ⟨updateInstanceProtection tasks details,
      (if calculateDesiredCapacity tasks.length instances.length
            ((instances.filter (fun arn => taskCountOf tasks arn == 0)).length)
          ≠ instances.length then
        [FleetCmd.setDesiredCapacity
          (calculateDesiredCapacity tasks.length instances.length
            ((instances.filter (fun arn => taskCountOf tasks arn == 0)).length))]
      else []), ?_, ?_, ?_⟩
    · unfold evaluateAndScale
      rw [if_neg (by simpa using hne)]
    · intro c hc
      exact mem_updateInstanceProtection tasks details c hc
    · intro c hc
      split at hc
      · rw [List.mem_singleton] at hc
        exact ⟨_, hc⟩
      · simp at hc

/-- Witness for C8: two tasks on host arn1, host arn2 empty — "i-1" is
protected and "i-2" unprotected. -/
theorem protection_assignment_witness :
    "i-1" ∈ instancesToProtect
      [⟨some "arn1"⟩, ⟨some "arn1"⟩] [⟨some "arn1", some "i-1"⟩, ⟨some "arn2", some "i-2"⟩] ∧
    "i-2" ∈ instancesToUnprotect
      [⟨some "arn1"⟩, ⟨some "arn1"⟩] [⟨some "arn1", some "i-1"⟩, ⟨some "arn2", some "i-2"⟩] := by
  constructor
  · exact ((protection_assignment [⟨some "arn1"⟩, ⟨some "arn1"⟩] ["arn1", "arn2"]
      [⟨some "arn1", some "i-1"⟩, ⟨some "arn2", some "i-2"⟩] (by simp)).1 "i-1").mpr
      ⟨⟨some "arn1", some "i-1"⟩, by simp, rfl, "arn1", rfl, by decide⟩
  · exact ((protection_assignment [⟨some "arn1"⟩, ⟨some "arn1"⟩] ["arn1", "arn2"]
      [⟨some "arn1", some "i-1"⟩, ⟨some "arn2", some "i-2"⟩] (by simp)).2.1 "i-2").mpr
      ⟨⟨some "arn2", some "i-2"⟩, by simp, rfl, "arn2", rfl, by decide⟩

/-! ## Compute fleet controller: lock-protected handler
    Source: `acquireAutoscalerLock`, `releaseAutoscalerLock` and `handler` in
    the lock-protected revision of `lib/lambdas/autoscaler.ts` (the draft that
    reads `LAUNCH_LOCKS_TABLE_NAME`, wired with the lock table and the 6-hour
    schedule by the matching infra revision).  The outcome of the DynamoDB
    conditional put is an oracle; the handler's observable actions are traced. -/

inductive LockAttemptOutcome where
  | granted
  | conflict
  | storeError
deriving Repr, DecidableEq

/-- `acquireAutoscalerLock`: `true` without any store call when the table is
not configured; on a conditional-check failure `false`; on any other store
error it proceeds anyway (`true`). -/
def acquireAutoscalerLock (tableConfigured : Bool) (outcome : LockAttemptOutcome) : Bool :=
  if !tableConfigured then true
  else
    match outcome with
    | .granted => true
    | .conflict => false
    | .storeError => true

inductive AutoscalerEv where
  | lockAttempt
  | fleet (cmd : FleetCmd)
  | lockRelease
deriving Repr, DecidableEq

structure TaskStateChangeDetail where
  clusterArn : Option String
  launchType : Option String
  lastStatus : Option String
deriving Repr, DecidableEq

/-- `clusterArn.split("/").pop()`. -/
def clusterNameOf (arn : String) : String :=
  (arn.splitOn "/").getLastD arn

/-- The lock-protected `handler`: acquire the lock (silently return when not
granted), evaluate and scale for manual/scheduled events or matching EC2 task
state changes, and release the lock in the `finally` block. -/
def autoscalerHandler (tableConfigured : Bool) (outcome : LockAttemptOutcome)
    (serviceCluster : String) (detail : Option TaskStateChangeDetail)
    (tasks : List TaskDetail) (instances : List String)
    (details : List InstanceDetail) : List AutoscalerEv :=
  let attemptEvs := if tableConfigured then [AutoscalerEv.lockAttempt] else []
  if acquireAutoscalerLock tableConfigured outcome = false then
    attemptEvs
  else
    let evalCmds :=
      match detail with
      | none => (evaluateAndScale tasks instances details).map AutoscalerEv.fleet
      | some d =>
          match d.clusterArn, d.launchType, d.lastStatus with
          | some ca, some lt, some _ =>
              if lt ≠ "EC2" then []
              else if clusterNameOf ca ≠ serviceCluster then []
              else (evaluateAndScale tasks instances details).map AutoscalerEv.fleet
          | _, _, _ => []
    attemptEvs ++ evalCmds ++ (if tableConfigured then [AutoscalerEv.lockRelease] else [])

/-- C4: with the lock table configured, every invocation of the
lock-protected fleet controller performs the lock acquisition as its first
action, and an invocation whose conditional write conflicts (lock not
granted) is a silent no-op: its trace is only the lock attempt — no fleet
mutation and no other action at all. -/
theorem autoscaler_lock_gate (tableConfigured : Bool) (outcome : LockAttemptOutcome)
    (serviceCluster : String) (detail : Option TaskStateChangeDetail)
    (tasks : List TaskDetail) (instances : List String)
    (details : List InstanceDetail) (hcfg : tableConfigured = true) :
    (∃ rest, autoscalerHandler tableConfigured outcome serviceCluster detail
        tasks instances details = AutoscalerEv.lockAttempt :: rest) ∧
    (outcome = .conflict →
      autoscalerHandler tableConfigured outcome serviceCluster detail
        tasks instances details = [AutoscalerEv.lockAttempt]) := by
  subst hcfg
  constructor
  · by_cases hacq : acquireAutoscalerLock true outcome = false
    · refine ⟨[], ?_⟩
      simp [autoscalerHandler, hacq]
    · refine ⟨(match detail with
        | none => (evaluateAndScale tasks instances details).map AutoscalerEv.fleet
        | some d =>
            match d.clusterArn, d.launchType, d.lastStatus with
            | some ca, some lt, some _ =>
                if lt ≠ "EC2" then []
                else if clusterNameOf ca ≠ serviceCluster then []
                else (evaluateAndScale tasks instances details).map AutoscalerEv.fleet
            | _, _, _ => []) ++ [AutoscalerEv.lockRelease], ?_⟩
      simp [autoscalerHandler, hacq]
  · rintro rfl
    simp [autoscalerHandler, acquireAutoscalerLock]

/-- Witness for C4: a conflicting acquire yields the silent no-op trace. -/
theorem autoscaler_lock_gate_witness :
    autoscalerHandler true .conflict "svc" none [] [] [] = [AutoscalerEv.lockAttempt] :=
  (autoscaler_lock_gate true .conflict "svc" none [] [] [] rfl).2 rfl

/-! ## Launch orchestrator
    Source: `lib/wrapper/src/app/api/[serviceName]/route.ts`.  The handler's
    network calls are events in a trace; their outcomes come from a `RouteEnv`
    oracle.  `SERVICE_NAME_REGEX` is the DNS-label pattern
    `[a-z0-9]([a-z0-9-]{0,61}[a-z0-9])?` matched case-insensitively. -/

def isNameChar (c : Char) : Bool := c.isAlphanum || c == '-'

def regexChars : List Char → Bool
  | [] => false
  | c :: cs =>
      c.isAlphanum &&
      (match cs with
       | [] => true
       | _ :: _ =>
           decide (cs.length ≤ 62) && cs.dropLast.all isNameChar &&
           (match cs.getLast? with
            | some d => d.isAlphanum
            | none => false))

def matchesServiceNameRegex (s : String) : Bool := regexChars s.data

/-- `validateServiceName`: returns the thrown error message, or `none` when
the name is accepted. -/
def validateServiceName (s : String) : Option String :=
  if s.length = 0 then some "Service name is required"
  else if 63 < s.length then some "Service name must be 63 characters or less"
  else if matchesServiceNameRegex s = false then
    some "Service name must contain only alphanumeric characters and hyphens, and start/end with alphanumeric"
  else none

/-- Substring test used for `errorMessage.includes("RESOURCE:")`. -/
def leadsWithSeq : List Char → List Char → Bool
  | [], _ => true
  | _ :: _, [] => false
  | p :: ps, c :: cs => p == c && leadsWithSeq ps cs

def containsSeq (pat : List Char) : List Char → Bool
  | [] => leadsWithSeq pat []
  | c :: cs => leadsWithSeq pat (c :: cs) || containsSeq pat cs

def containsResource (msg : String) : Bool :=
  containsSeq "RESOURCE:".data msg.data

/-- The proxy-launch guard `/^\d+\.\d+\.\d+\.\d+$/` on the service IP. -/
def chunksOnDot : List Char → List (List Char)
  | [] => [[]]
  | c :: cs =>
      if c == '.' then [] :: chunksOnDot cs
      else
        match chunksOnDot cs with
        | [] => [[c]]
        | g :: gs => (c :: g) :: gs

def ipFormatOk (ip : String) : Bool :=
  (chunksOnDot ip.data).length == 4 &&
  (chunksOnDot ip.data).all (fun g => !g.isEmpty && g.all Char.isDigit)

inductive Ev where
  | findTasks
  | checkAccessible (ok : Bool)
  | lockAcquire (key : String)
  | lockRelease (key : String)
  | setDesiredCapacity (n : Nat)
  | waitInstanceJoin
  | runServiceTask (name : String)
  | runProxyTask (name : String) (ip : String)
  | waitTaskRunning (cluster : String)
  | sleepMs (ms : Nat)
  | waitProxyAccessible
deriving Repr, DecidableEq

structure HostResources where
  cpu : Nat
  memory : Nat
deriving Repr, DecidableEq

structure EnsureEnv where
  hosts : List HostResources
  desired : Nat
  maxSize : Nat
  joinOk : Bool
deriving Repr, DecidableEq

def hasCapacity (hosts : List HostResources) : Bool :=
  hosts.any (fun h => decide (256 ≤ h.cpu) && decide (512 ≤ h.memory))

/-- `ensureEc2Capacity`: return immediately when some instance has at least
256 CPU / 512 MiB free; otherwise request `min(desired + 1, maxSize)` when
that exceeds the current desired capacity, then wait up to 3 minutes for an
instance to join (a timeout becomes the returned error message). -/
def ensureEc2Capacity (e : EnsureEnv) : List Ev × Option String :=
  if 0 < e.hosts.length ∧ hasCapacity e.hosts = true then
    ([], none)
  else
    ((if e.desired < min (e.desired + 1) e.maxSize then
        [Ev.setDesiredCapacity (min (e.desired + 1) e.maxSize)]
      else []) ++ [Ev.waitInstanceJoin],
     if e.joinOk then none else some "Timeout waiting for EC2 instance to join cluster")

def maxRetries : Nat := 3

/-- The `while (retries <= maxRetries)` loop of the handler: each iteration
runs `ensureEc2Capacity` then `launchServiceTask`; a failure whose message
contains "RESOURCE:" with `retries < maxRetries` sleeps 10 s and retries,
any other failure (or an exhausted budget) propagates.  `fuel` is
`maxRetries + 1 - retries`, so the out-of-fuel branch is unreachable. -/
def launchRetryLoop (ensF : Nat → EnsureEnv) (lF : Nat → Except String String)
    (name : String) : Nat → Nat → List Ev × Except String String
  | _, 0 => ([], Except.error "out of fuel")
  | retries, fuel + 1 =>
      let ens := ensureEc2Capacity (ensF retries)
      match ens.2 with
      | some msg =>
          if containsResource msg = true ∧ retries < maxRetries then
            let next := launchRetryLoop ensF lF name (retries + 1) fuel
            (ens.1 ++ [Ev.sleepMs 10000] ++ next.1, next.2)
          else (ens.1, Except.error msg)
      | none =>
          cond (matchesServiceNameRegex name)
            (match lF retries with
             | Except.ok arn => (ens.1 ++ [Ev.runServiceTask name], Except.ok arn)
             | Except.error msg =>
                 if containsResource msg = true ∧ retries < maxRetries then
                   let next := launchRetryLoop ensF lF name (retries + 1) fuel
                   (ens.1 ++ [Ev.runServiceTask name, Ev.sleepMs 10000] ++ next.1, next.2)
                 else (ens.1 ++ [Ev.runServiceTask name], Except.error msg))
            (ens.1, Except.error ("Invalid service name: " ++ name))

structure TaskInfo where
  arn : String
  status : String
  privateIp : Option String
deriving Repr, DecidableEq

structure ApiResponse where
  httpStatus : Nat
  status : String
  errorMsg : Option String := none
  message : Option String := none
  proxyRunning : Option Bool := none
  serviceRunning : Option Bool := none
  proxyTask : Option String := none
  serviceTask : Option String := none
  serviceIp : Option String := none
  url : Option String := none
  isAccessible : Option Bool := none
deriving Repr, DecidableEq

/-- Oracle outcomes for one handler invocation. -/
structure RouteEnv where
  proxy0 : Option TaskInfo
  service0 : Option TaskInfo
  accessible0 : Bool
  lockGranted : Bool
  proxy1 : Option TaskInfo
  service1 : Option TaskInfo
  accessible1 : Bool
  ensureEnvF : Nat → EnsureEnv
  launchF : Nat → Except String String
  waitService : Except String TaskInfo
  launchProxy : Except String String
  waitProxy : Except String TaskInfo
  proxyBecameAccessible : Bool

def serviceUrl (domain name : String) : String :=
  "http://" ++ name ++ "." ++ domain ++ ":9060"

def statusRunningB (t : Option TaskInfo) : Bool :=
  match t with
  | some ti => ti.status == "RUNNING"
  | none => false

def serviceRunningB (t : Option TaskInfo) : Bool :=
  match t with
  | some ti => ti.status == "RUNNING" && ti.privateIp.isSome
  | none => false

/-- The inner `pWaitFor` of `waitForProxyAccessible`: rejects with a timeout
error when the proxy never became reachable within the window. -/
def pWaitForAccessible (became : Bool) : Except String Unit :=
  if became then Except.ok () else Except.error "pWaitFor timeout"

/-- `waitForProxyAccessible`: the timeout is caught and only logged. -/
def waitForProxyAccessible (became : Bool) : Except String Unit :=
  match pWaitForAccessible became with
  | Except.ok _ => Except.ok ()
  | Except.error _ => Except.ok ()

def readyResponse (domain name proxyArn serviceArn : String) (ip : Option String)
    (acc : Bool) : ApiResponse :=
  { httpStatus := 200, status := "ready", proxyRunning := some true,
    serviceRunning := some true, proxyTask := some proxyArn,
    serviceTask := some serviceArn, serviceIp := ip,
    url := some (serviceUrl domain name), isAccessible := some acc }

/-- Steps 5–8 of the locked section once the service IP is known: launch the
proxy task if missing, wait for it, release the lock, then run the
reachability wait and return ready with `isAccessible: true`. -/
def proxyPhase (domain name : String) (env : RouteEnv) (svcArn ip : String) :
    List Ev × Except String ApiResponse :=
  match env.proxy1 with
  | some p =>
      ([Ev.lockRelease name, Ev.waitProxyAccessible],
       match waitForProxyAccessible env.proxyBecameAccessible with
       | Except.ok _ => Except.ok (readyResponse domain name p.arn svcArn (some ip) true)
       | Except.error e => Except.error e)
  | none =>
      if matchesServiceNameRegex name = false then
        ([], Except.error ("Invalid service name: " ++ name))
      else if ipFormatOk ip = false then
        ([], Except.error ("Invalid service IP: " ++ ip))
      else
        match env.launchProxy with
        | Except.error msg => ([Ev.runProxyTask name ip], Except.error msg)
        | Except.ok parn =>
            match env.waitProxy with
            | Except.error msg =>
                ([Ev.runProxyTask name ip, Ev.waitTaskRunning "proxy"], Except.error msg)
            | Except.ok _ =>
                ([Ev.runProxyTask name ip, Ev.waitTaskRunning "proxy",
                  Ev.lockRelease name, Ev.waitProxyAccessible],
                 match waitForProxyAccessible env.proxyBecameAccessible with
                 | Except.ok _ =>
                     Except.ok (readyResponse domain name parn svcArn (some ip) true)
                 | Except.error e => Except.error e)

/-- Step 4 of the locked section when the service task must be launched:
retry loop, wait for RUNNING, require a private IP. -/
def launchServicePhase (domain name : String) (env : RouteEnv) :
    List Ev × Except String ApiResponse :=
  let lp := launchRetryLoop env.ensureEnvF env.launchF name 0 (maxRetries + 1)
  match lp.2 with
  | Except.error msg => (lp.1, Except.error msg)
  | Except.ok _ =>
      match env.waitService with
      | Except.error msg => (lp.1 ++ [Ev.waitTaskRunning "service"], Except.error msg)
      | Except.ok ti =>
          match ti.privateIp with
          | none =>
              (lp.1 ++ [Ev.waitTaskRunning "service"],
               Except.error "Service task has no private IP")
          | some ip =>
              let pp := proxyPhase domain name env ti.arn ip
              (lp.1 ++ [Ev.waitTaskRunning "service"] ++ pp.1, pp.2)

def servicePhase (domain name : String) (env : RouteEnv) :
    List Ev × Except String ApiResponse :=
  match env.service1 with
  | some ti =>
      match ti.privateIp with
      | some sip => proxyPhase domain name env ti.arn sip
      | none => launchServicePhase domain name env
  | none => launchServicePhase domain name env

/-- The `try` block under the lock: recheck tasks; when both already exist
with a service IP, release the lock and return ready; otherwise run the
launch phases. -/
def lockedSection (domain name : String) (env : RouteEnv) :
    List Ev × Except String ApiResponse :=
  match env.proxy1, env.service1 with
  | some p, some s =>
      (match s.privateIp with
       | some sip =>
           ([Ev.findTasks, Ev.lockRelease name, Ev.checkAccessible env.accessible1],
            Except.ok
              { httpStatus := 200, status := "ready", proxyRunning := some true,
                serviceRunning := some true, proxyTask := some p.arn,
                serviceTask := some s.arn, serviceIp := some sip,
                url := some (serviceUrl domain name),
                isAccessible := some env.accessible1 })
       | none =>
           let sp := servicePhase domain name env
           (Ev.findTasks :: sp.1, sp.2))
  | _, _ =>
      let sp := servicePhase domain name env
      (Ev.findTasks :: sp.1, sp.2)

/-- Lock acquisition and the surrounding `try`/`finally`/`catch`: a refused
lock yields 409 "starting"; an error unwinds with the `finally` release and
the outer catch release, then 500. -/
def lockPhase (domain name : String) (env : RouteEnv) (preEvs : List Ev) :
    List Ev × ApiResponse :=
  if env.lockGranted = false then
    (preEvs ++ [Ev.lockAcquire name],
     { httpStatus := 409, status := "starting",
       message := some "Service launch already in progress",
       proxyRunning := some false, serviceRunning := some false,
       url := some (serviceUrl domain name), isAccessible := some false })
  else
    let ls := lockedSection domain name env
    match ls.2 with
    | Except.ok resp => (preEvs ++ [Ev.lockAcquire name] ++ ls.1, resp)
    | Except.error msg =>
        (preEvs ++ [Ev.lockAcquire name] ++ ls.1 ++
          [Ev.lockRelease name, Ev.lockRelease name],
         { httpStatus := 500, status := "error", errorMsg := some msg })

/-- The route handler `GET`. -/
def GETres (domain name : String) (checkStatus : Bool) (env : RouteEnv) :
    List Ev × ApiResponse :=
  match validateServiceName name with
  | some msg => ([], { httpStatus := 400, status := "error", errorMsg := some msg })
  | none =>
      if checkStatus then
        if statusRunningB env.proxy0 && serviceRunningB env.service0 then
          ([Ev.findTasks, Ev.checkAccessible env.accessible0],
           { httpStatus := 200,
             status := if env.accessible0 then "ready" else "starting",
             proxyRunning := some (statusRunningB env.proxy0),
             serviceRunning := some (serviceRunningB env.service0),
             proxyTask := Option.map TaskInfo.arn env.proxy0,
             serviceTask := Option.map TaskInfo.arn env.service0,
             serviceIp := Option.bind env.service0 TaskInfo.privateIp,
             url := some (serviceUrl domain name),
             isAccessible := some env.accessible0 })
        else
          ([Ev.findTasks],
           { httpStatus := 200, status := "starting",
             proxyRunning := some (statusRunningB env.proxy0),
             serviceRunning := some (serviceRunningB env.service0),
             proxyTask := Option.map TaskInfo.arn env.proxy0,
             serviceTask := Option.map TaskInfo.arn env.service0,
             serviceIp := Option.bind env.service0 TaskInfo.privateIp,
             url := some (serviceUrl domain name),
             isAccessible := some false })
      else
        if statusRunningB env.proxy0 && serviceRunningB env.service0 then
          if env.accessible0 then
            ([Ev.findTasks, Ev.checkAccessible true],
             { httpStatus := 200, status := "ready", proxyRunning := some true,
               serviceRunning := some true,
               proxyTask := Option.map TaskInfo.arn env.proxy0,
               serviceTask := Option.map TaskInfo.arn env.service0,
               serviceIp := Option.bind env.service0 TaskInfo.privateIp,
               url := some (serviceUrl domain name),
               isAccessible := some true })
          else
            lockPhase domain name env [Ev.findTasks, Ev.checkAccessible false]
        else
          lockPhase domain name env [Ev.findTasks]

/-! ### The capacity-retry loop (claim C3) -/

def attemptCount : List Ev → Nat
  | [] => 0
  | Ev.runServiceTask _ :: tr => attemptCount tr + 1
  | _ :: tr => attemptCount tr

def sleepCount : List Ev → Nat
  | [] => 0
  | Ev.sleepMs _ :: tr => sleepCount tr + 1
  | _ :: tr => sleepCount tr

lemma attemptCount_append (a b : List Ev) :
    attemptCount (a ++ b) = attemptCount a + attemptCount b := by
  induction a with
  | nil => simp [attemptCount]
  | cons e a ih => cases e <;> simp [attemptCount, ih] <;> omega

lemma sleepCount_append (a b : List Ev) :
    sleepCount (a ++ b) = sleepCount a + sleepCount b := by
  induction a with
  | nil => simp [sleepCount]
  | cons e a ih => cases e <;> simp [sleepCount, ih] <;> omega

lemma ensure_attemptCount (e : EnsureEnv) : attemptCount (ensureEc2Capacity e).1 = 0 := by
  unfold ensureEc2Capacity
  split_ifs <;> simp [attemptCount]

lemma ensure_sleepCount (e : EnsureEnv) : sleepCount (ensureEc2Capacity e).1 = 0 := by
  unfold ensureEc2Capacity
  split_ifs <;> simp [sleepCount]

lemma loop_step_ens_err_retry (ensF : Nat → EnsureEnv) (lF : Nat → Except String String)
    (name : String) (retries fuel : Nat) (msg : String)
    (hens : (ensureEc2Capacity (ensF retries)).2 = some msg)
    (hc : containsResource msg = true ∧ retries < maxRetries) :
    launchRetryLoop ensF lF name retries (fuel + 1) =
      ((ensureEc2Capacity (ensF retries)).1 ++ [Ev.sleepMs 10000] ++
          (launchRetryLoop ensF lF name (retries + 1) fuel).1,
        (launchRetryLoop ensF lF name (retries + 1) fuel).2) := by
  simp only [launchRetryLoop, hens, if_pos hc]

lemma loop_step_ens_err_stop (ensF : Nat → EnsureEnv) (lF : Nat → Except String String)
    (name : String) (retries fuel : Nat) (msg : String)
    (hens : (ensureEc2Capacity (ensF retries)).2 = some msg)
    (hnc : ¬(containsResource msg = true ∧ retries < maxRetries)) :
    launchRetryLoop ensF lF name retries (fuel + 1) =
      ((ensureEc2Capacity (ensF retries)).1, Except.error msg) := by
  simp only [launchRetryLoop, hens, if_neg hnc]

lemma loop_step_bad_name (ensF : Nat → EnsureEnv) (lF : Nat → Except String String)
    (name : String) (retries fuel : Nat)
    (hens : (ensureEc2Capacity (ensF retries)).2 = none)
    (hname : matchesServiceNameRegex name = false) :
    launchRetryLoop ensF lF name retries (fuel + 1) =
      ((ensureEc2Capacity (ensF retries)).1,
        Except.error ("Invalid service name: " ++ name)) := by
  simp only [launchRetryLoop, hens, hname, cond_false]

lemma loop_step_ok (ensF : Nat → EnsureEnv) (lF : Nat → Except String String)
    (name : String) (retries fuel : Nat) (arn : String)
    (hens : (ensureEc2Capacity (ensF retries)).2 = none)
    (hname : matchesServiceNameRegex name = true)
    (harn : lF retries = Except.ok arn) :
    launchRetryLoop ensF lF name retries (fuel + 1) =
      ((ensureEc2Capacity (ensF retries)).1 ++ [Ev.runServiceTask name],
        Except.ok arn) := by
  simp only [launchRetryLoop, hens, hname, cond_true, harn]

lemma loop_step_fail_retry (ensF : Nat → EnsureEnv) (lF : Nat → Except String String)
    (name : String) (retries fuel : Nat) (msg : String)
    (hens : (ensureEc2Capacity (ensF retries)).2 = none)
    (hname : matchesServiceNameRegex name = true)
    (hmsg : lF retries = Except.error msg)
    (hc : containsResource msg = true ∧ retries < maxRetries) :
    launchRetryLoop ensF lF name retries (fuel + 1) =
      ((ensureEc2Capacity (ensF retries)).1 ++
          [Ev.runServiceTask name, Ev.sleepMs 10000] ++
          (launchRetryLoop ensF lF name (retries + 1) fuel).1,
        (launchRetryLoop ensF lF name (retries + 1) fuel).2) := by
  simp only [launchRetryLoop, hens, hname, cond_true, hmsg, if_pos hc]

lemma loop_step_fail_stop (ensF : Nat → EnsureEnv) (lF : Nat → Except String String)
    (name : String) (retries fuel : Nat) (msg : String)
    (hens : (ensureEc2Capacity (ensF retries)).2 = none)
    (hname : matchesServiceNameRegex name = true)
    (hmsg : lF retries = Except.error msg)
    (hnc : ¬(containsResource msg = true ∧ retries < maxRetries)) :
    launchRetryLoop ensF lF name retries (fuel + 1) =
      ((ensureEc2Capacity (ensF retries)).1 ++ [Ev.runServiceTask name],
        Except.error msg) := by
  simp only [launchRetryLoop, hens, hname, cond_true, hmsg, if_neg hnc]

lemma loop_attempts_le (ensF : Nat → EnsureEnv) (lF : Nat → Except String String)
    (name : String) :
    ∀ fuel retries, attemptCount (launchRetryLoop ensF lF name retries fuel).1 ≤ fuel := by
  intro fuel
  induction fuel with
  | zero => intro retries; simp [launchRetryLoop, attemptCount]
  | succ fuel ih =>
      intro retries
      cases hens : (ensureEc2Capacity (ensF retries)).2 with
      | some msg =>
          by_cases hc : containsResource msg = true ∧ retries < maxRetries
          · rw [loop_step_ens_err_retry ensF lF name retries fuel msg hens hc]
            have h2 := ih (retries + 1)
            simp [attemptCount_append, ensure_attemptCount, attemptCount]
            omega
          · rw [loop_step_ens_err_stop ensF lF name retries fuel msg hens hc]
            simp [ensure_attemptCount]
      | none =>
          by_cases hname : matchesServiceNameRegex name = true
          · cases hl : lF retries with
            | ok arn =>
                rw [loop_step_ok ensF lF name retries fuel arn hens hname hl]
                simp [attemptCount_append, ensure_attemptCount, attemptCount]
            | error msg =>
                by_cases hc : containsResource msg = true ∧ retries < maxRetries
                · rw [loop_step_fail_retry ensF lF name retries fuel msg hens hname hl hc]
                  have h2 := ih (retries + 1)
                  simp [attemptCount_append, ensure_attemptCount, attemptCount]
                  omega
                · rw [loop_step_fail_stop ensF lF name retries fuel msg hens hname hl hc]
                  simp [attemptCount_append, ensure_attemptCount, attemptCount]
          · have hfalse : matchesServiceNameRegex name = false := by
              revert hname
              cases matchesServiceNameRegex name <;> simp
            rw [loop_step_bad_name ensF lF name retries fuel hens hfalse]
            simp [ensure_attemptCount]

lemma loop_all_resource (ensF : Nat → EnsureEnv) (lF : Nat → Except String String)
    (name : String)
    (hens : ∀ i, (ensureEc2Capacity (ensF i)).2 = none)
    (hname : matchesServiceNameRegex name = true)
    (hfail : ∀ i, ∃ msg, lF i = Except.error msg ∧ containsResource msg = true) :
    ∀ k retries, retries + k = maxRetries →
      (launchRetryLoop ensF lF name retries (k + 1)).2 = lF maxRetries ∧
      attemptCount (launchRetryLoop ensF lF name retries (k + 1)).1 = k + 1 ∧
      sleepCount (launchRetryLoop ensF lF name retries (k + 1)).1 = k := by
  intro k
  induction k with
  | zero =>
      intro retries hr
      obtain rfl : retries = maxRetries := by omega
      obtain ⟨msg, hmsg, hres⟩ := hfail maxRetries
      rw [loop_step_fail_stop ensF lF name maxRetries 0 msg (hens maxRetries) hname hmsg
        (by intro h; exact absurd h.2 (Nat.lt_irrefl _))]
      refine ⟨by rw [hmsg], ?_, ?_⟩
      · simp [attemptCount_append, ensure_attemptCount, attemptCount]
      · simp [sleepCount_append, ensure_sleepCount, sleepCount]
  | succ k ih =>
      intro retries hr
      have hlt : retries < maxRetries := by omega
      obtain ⟨msg, hmsg, hres⟩ := hfail retries
      obtain ⟨ihr, iha, ihs⟩ := ih (retries + 1) (by omega)
      rw [loop_step_fail_retry ensF lF name retries (k + 1) msg (hens retries) hname hmsg
        ⟨hres, hlt⟩]
      refine ⟨ihr, ?_, ?_⟩
      · simp [attemptCount_append, ensure_attemptCount, attemptCount]
        omega
      · simp [sleepCount_append, ensure_sleepCount, sleepCount]
        omega

/-- C3 counterexample inputs: every host has ample free capacity, yet the
first create-task call fails with a "RESOURCE:" reason. -/
def cexEnsF : Nat → EnsureEnv := fun _ => ⟨[⟨1024, 2048⟩], 1, 3, true⟩

def cexLF : Nat → Except String String := fun i =>
  if i = 0 then Except.error "Failed to launch service task: RESOURCE:MEMORY"
  else Except.ok "task-arn-2"

/-- C3 counterexample: a capacity-class failure is retried (after the fixed
10 s sleep) without any "one additional fleet unit" request ever being
issued — here a host already has free capacity, so `ensureEc2Capacity`
returns without touching the fleet, refuting "each time first requesting
one additional fleet unit". -/
theorem capacity_retry_counterexample :
    launchRetryLoop cexEnsF cexLF "demo" 0 (maxRetries + 1) =
      ([Ev.runServiceTask "demo", Ev.sleepMs 10000, Ev.runServiceTask "demo"],
       Except.ok "task-arn-2") ∧
    (∀ n, Ev.setDesiredCapacity n ∉ (launchRetryLoop cexEnsF cexLF "demo" 0 (maxRetries + 1)).1) := by
  have h : launchRetryLoop cexEnsF cexLF "demo" 0 (maxRetries + 1) =
      ([Ev.runServiceTask "demo", Ev.sleepMs 10000, Ev.runServiceTask "demo"],
       Except.ok "task-arn-2") := by rfl
  refine ⟨h, ?_⟩
  intro n
  rw [h]
  simp

/-- C3 (amended): on capacity-class failures (message containing
"RESOURCE:") the loop retries at most 3 times, sleeping a fixed 10 s before
each retry and re-running the capacity-ensure step first — that step
requests exactly one additional fleet unit only when no host has free
capacity and the fleet is below its maximum size; after the retry budget is
exhausted the last capacity error propagates as a hard failure, and any
non-capacity failure propagates immediately. -/
theorem capacity_retry_policy (ensF : Nat → EnsureEnv) (lF : Nat → Except String String)
    (name : String) (hname : matchesServiceNameRegex name = true) :
    attemptCount (launchRetryLoop ensF lF name 0 (maxRetries + 1)).1 ≤ maxRetries + 1 ∧
    ((∀ i, (ensureEc2Capacity (ensF i)).2 = none) →
      (∀ i, ∃ msg, lF i = Except.error msg ∧ containsResource msg = true) →
      (launchRetryLoop ensF lF name 0 (maxRetries + 1)).2 = lF maxRetries ∧
      attemptCount (launchRetryLoop ensF lF name 0 (maxRetries + 1)).1 = maxRetries + 1 ∧
      sleepCount (launchRetryLoop ensF lF name 0 (maxRetries + 1)).1 = maxRetries) ∧
    (∀ msg, (ensureEc2Capacity (ensF 0)).2 = none → lF 0 = Except.error msg →
      containsResource msg = false →
      (launchRetryLoop ensF lF name 0 (maxRetries + 1)).2 = Except.error msg ∧
      attemptCount (launchRetryLoop ensF lF name 0 (maxRetries + 1)).1 = 1) ∧
    (∀ e : EnsureEnv, ¬(0 < e.hosts.length ∧ hasCapacity e.hosts = true) →
      e.desired < e.maxSize →
      (ensureEc2Capacity e).1 = [Ev.setDesiredCapacity (e.desired + 1), Ev.waitInstanceJoin]) := by
  refine ⟨loop_attempts_le ensF lF name (maxRetries + 1) 0, ?_, ?_, ?_⟩
  · intro hens hfail
    exact loop_all_resource ensF lF name hens hname hfail maxRetries 0 (by simp)
  · intro msg hens hmsg hres
    rw [loop_step_fail_stop ensF lF name 0 maxRetries msg hens hname hmsg
      (by intro h; rw [hres] at h; exact absurd h.1 (by simp))]
    refine ⟨rfl, ?_⟩
    simp [attemptCount_append, ensure_attemptCount, attemptCount]
  · intro e hcap hlt
    unfold ensureEc2Capacity
    rw [if_neg hcap]
    have hmin : min (e.desired + 1) e.maxSize = e.desired + 1 :=
      Nat.min_eq_left (by omega)
    rw [hmin, if_pos (by omega)]
    rfl

def witEnsF : Nat → EnsureEnv := fun _ => ⟨[], 0, 5, true⟩

def witLF : Nat → Except String String := fun _ => Except.error "RESOURCE:CPU"

/-- Witness for the amended C3: with an empty fleet and persistent capacity
failures, the loop makes exactly 4 attempts, sleeps 3 times and propagates
the capacity error. -/
theorem capacity_retry_policy_witness :
    (launchRetryLoop witEnsF witLF "demo" 0 (maxRetries + 1)).2 = witLF maxRetries ∧
    attemptCount (launchRetryLoop witEnsF witLF "demo" 0 (maxRetries + 1)).1 = maxRetries + 1 ∧
    sleepCount (launchRetryLoop witEnsF witLF "demo" 0 (maxRetries + 1)).1 = maxRetries :=
  (capacity_retry_policy witEnsF witLF "demo" (by decide)).2.1
    (fun _ => rfl) (fun _ => ⟨"RESOURCE:CPU", rfl, by decide⟩)

/-! ### Invalid workload names (claim C9) -/

lemma regexChars_nameChars (l : List Char) (h : regexChars l = true) :
    ∀ c ∈ l, isNameChar c = true := by
  intro c hc
  cases l with
  | nil => simp at hc
  | cons c0 cs =>
      simp only [regexChars, Bool.and_eq_true] at h
      obtain ⟨h0, hrest⟩ := h
      rcases List.mem_cons.mp hc with rfl | hmem
      · simp [isNameChar, h0]
      · cases cs with
        | nil => simp at hmem
        | cons c1 cs1 =>
            simp only [Bool.and_eq_true] at hrest
            obtain ⟨⟨hlen, hall⟩, hlast⟩ := hrest
            have hne : (c1 :: cs1 : List Char) ≠ [] := by simp
            have hsplit := List.dropLast_append_getLast hne
            rw [← hsplit] at hmem
            rcases List.mem_append.mp hmem with hm | hm
            · exact List.all_eq_true.mp hall c hm
            · rw [List.mem_singleton] at hm
              subst hm
              rw [List.getLast?_eq_getLast (c1 :: cs1) hne] at hlast
              simp only [] at hlast
              simp [isNameChar, hlast]

lemma regexChars_head (l : List Char) (h : regexChars l = true) :
    ∀ c, l.head? = some c → c.isAlphanum = true := by
  intro c hc
  cases l with
  | nil => simp at hc
  | cons c0 cs =>
      simp only [List.head?_cons, Option.some.injEq] at hc
      subst hc
      simp only [regexChars, Bool.and_eq_true] at h
      exact h.1

lemma regexChars_last (l : List Char) (h : regexChars l = true) :
    ∀ c, l.getLast? = some c → c.isAlphanum = true := by
  intro c hc
  cases l with
  | nil => simp at hc
  | cons c0 cs =>
      cases cs with
      | nil =>
          simp only [List.getLast?_singleton, Option.some.injEq] at hc
          subst hc
          simp only [regexChars, Bool.and_eq_true] at h
          exact h.1
      | cons c1 cs1 =>
          simp only [regexChars, Bool.and_eq_true] at h
          obtain ⟨_, ⟨_, _⟩, hlast⟩ := h
          rw [List.getLast?_cons_cons] at hc
          rw [hc] at hlast
          simpa using hlast

/-- C9: a request whose workload name violates the identifier format (empty,
longer than 63 characters, containing a character other than ASCII
alphanumerics and hyphens, or starting or ending with a hyphen) is rejected
immediately: status "error", HTTP 400, and an empty trace — no lock
acquisition and no provisioning side effect. -/
theorem invalid_name_rejected (domain name : String) (checkStatus : Bool) (env : RouteEnv)
    (h : name.length = 0 ∨ 63 < name.length ∨
         (∃ c ∈ name.data, isNameChar c = false) ∨
         name.data.head? = some '-' ∨ name.data.getLast? = some '-') :
    (GETres domain name checkStatus env).1 = [] ∧
    (GETres domain name checkStatus env).2.status = "error" ∧
    (GETres domain name checkStatus env).2.httpStatus = 400 := by
  have hv : ∃ msg, validateServiceName name = some msg := by
    by_contra hno
    push_neg at hno
    have hnone : validateServiceName name = none := by
      cases hvv : validateServiceName name with
      | none => rfl
      | some m => exact absurd hvv (hno m)
    unfold validateServiceName at hnone
    split_ifs at hnone with h1 h2 h3
    have hre : regexChars name.data = true := by
      have hmt : matchesServiceNameRegex name = true := by
        revert h3
        cases matchesServiceNameRegex name <;> simp
      simpa [matchesServiceNameRegex] using hmt
    rcases h with h0 | h0 | ⟨c, hc, hbad⟩ | h0 | h0
    · exact h1 h0
    · exact h2 h0
    · have hgood := regexChars_nameChars name.data hre c hc
      rw [hbad] at hgood
      exact absurd hgood (by simp)
    · have hgood := regexChars_head name.data hre '-' h0
      exact absurd hgood (by decide)
    · have hgood := regexChars_last name.data hre '-' h0
      exact absurd hgood (by decide)
  obtain ⟨msg, hmsg⟩ := hv
  simp [GETres, hmsg]

def trivialRouteEnv : RouteEnv where
  proxy0 := none
  service0 := none
  accessible0 := false
  lockGranted := false
  proxy1 := none
  service1 := none
  accessible1 := false
  ensureEnvF := fun _ => ⟨[], 0, 0, false⟩
  launchF := fun _ => Except.error "e"
  waitService := Except.error "e"
  launchProxy := Except.error "e"
  waitProxy := Except.error "e"
  proxyBecameAccessible := false

/-- Witness for C9: the name "-bad" (leading hyphen) is rejected with 400 and
an empty trace. -/
theorem invalid_name_rejected_witness :
    (GETres "example.com" "-bad" false trivialRouteEnv).1 = [] ∧
    (GETres "example.com" "-bad" false trivialRouteEnv).2.status = "error" ∧
    (GETres "example.com" "-bad" false trivialRouteEnv).2.httpStatus = 400 :=
  invalid_name_rejected "example.com" "-bad" false trivialRouteEnv
    (Or.inr (Or.inr (Or.inr (Or.inl (by decide)))))

/-! ### Idempotent fast path (claim C5) -/

/-- C5: when the Frontend (proxy) and Backend (service) tasks for a valid
name are already RUNNING — the service with its private IP — and the single
reachability probe confirms health, the handler returns ready with exactly
the existing tasks' identities and addresses, and its trace is only the
read-only task query and the probe: no lock acquisition and no create-task
call of either kind. -/
theorem idempotent_fast_path (domain name : String) (env : RouteEnv)
    (pa sa sip : String) (pip : Option String)
    (hv : validateServiceName name = none)
    (hp : env.proxy0 = some ⟨pa, "RUNNING", pip⟩)
    (hs : env.service0 = some ⟨sa, "RUNNING", some sip⟩)
    (hacc : env.accessible0 = true) :
    GETres domain name false env =
      ([Ev.findTasks, Ev.checkAccessible true],
       { httpStatus := 200, status := "ready", proxyRunning := some true,
         serviceRunning := some true, proxyTask := some pa, serviceTask := some sa,
         serviceIp := some sip, url := some (serviceUrl domain name),
         isAccessible := some true }) ∧
    (∀ k, Ev.lockAcquire k ∉ (GETres domain name false env).1) ∧
    (∀ n2 ip, Ev.runServiceTask n2 ∉ (GETres domain name false env).1 ∧
              Ev.runProxyTask n2 ip ∉ (GETres domain name false env).1) := by
  have hmain : GETres domain name false env =
      ([Ev.findTasks, Ev.checkAccessible true],
       { httpStatus := 200, status := "ready", proxyRunning := some true,
         serviceRunning := some true, proxyTask := some pa, serviceTask := some sa,
         serviceIp := some sip, url := some (serviceUrl domain name),
         isAccessible := some true }) := by
    simp [GETres, hv, hp, hs, hacc, statusRunningB, serviceRunningB]
  refine ⟨hmain, ?_, ?_⟩
  · intro k
    rw [hmain]
    simp
  · intro n2 ip
    rw [hmain]
    constructor <;> simp

def readyRouteEnv : RouteEnv where
  proxy0 := some ⟨"proxy-arn", "RUNNING", some "52.1.2.3"⟩
  service0 := some ⟨"service-arn", "RUNNING", some "10.0.1.5"⟩
  accessible0 := true
  lockGranted := false
  proxy1 := none
  service1 := none
  accessible1 := false
  ensureEnvF := fun _ => ⟨[], 0, 0, false⟩
  launchF := fun _ => Except.error "e"
  waitService := Except.error "e"
  launchProxy := Except.error "e"
  waitProxy := Except.error "e"
  proxyBecameAccessible := false

/-- Witness for C5: a ready workload "demo" is answered from the fast path. -/
theorem idempotent_fast_path_witness :
    GETres "example.com" "demo" false readyRouteEnv =
      ([Ev.findTasks, Ev.checkAccessible true],
       { httpStatus := 200, status := "ready", proxyRunning := some true,
         serviceRunning := some true, proxyTask := some "proxy-arn",
         serviceTask := some "service-arn", serviceIp := some "10.0.1.5",
         url := some (serviceUrl "example.com" "demo"), isAccessible := some true }) :=
  (idempotent_fast_path "example.com" "demo" readyRouteEnv "proxy-arn" "service-arn"
    "10.0.1.5" (some "52.1.2.3") (by rfl) rfl rfl rfl).1

/-! ### Lock discipline around the reachability wait (claims C6, C10) -/

/-- Scan a trace tracking whether the launch lock is held; `false` exactly
when some reachability-wait event occurs while the lock is held. -/
def lockFreeAtReachabilityWait : List Ev → Bool → Bool
  | [], _ => true
  | Ev.lockAcquire _ :: tr, _ => lockFreeAtReachabilityWait tr true
  | Ev.lockRelease _ :: tr, _ => lockFreeAtReachabilityWait tr false
  | Ev.waitProxyAccessible :: tr, held => !held && lockFreeAtReachabilityWait tr held
  | _ :: tr, held => lockFreeAtReachabilityWait tr held

/-- Either the trace never reaches the reachability wait, or it ends with
the lock release immediately followed by the wait. -/
def goodTrace (name : String) (tr : List Ev) : Prop :=
  Ev.waitProxyAccessible ∉ tr ∨
  ∃ pre, tr = pre ++ [Ev.lockRelease name, Ev.waitProxyAccessible] ∧
    Ev.waitProxyAccessible ∉ pre

lemma wfpa_ok (b : Bool) : waitForProxyAccessible b = Except.ok () := by
  unfold waitForProxyAccessible pWaitForAccessible
  cases b <;> rfl

lemma goodTrace_nil (name : String) : goodTrace name [] := Or.inl (by simp)

lemma goodTrace_cons (name : String) (e : Ev) (tr : List Ev)
    (he : e ≠ Ev.waitProxyAccessible) (h : goodTrace name tr) :
    goodTrace name (e :: tr) := by
  rcases h with h | ⟨pre, hpre, hnw⟩
  · refine Or.inl ?_
    simp only [List.mem_cons]
    rintro (h2 | h2)
    · exact he h2.symm
    · exact h h2
  · refine Or.inr ⟨e :: pre, ?_, ?_⟩
    · rw [hpre]
      rfl
    · simp only [List.mem_cons]
      rintro (h2 | h2)
      · exact he h2.symm
      · exact hnw h2

lemma goodTrace_append_left (name : String) (l tr : List Ev)
    (hl : Ev.waitProxyAccessible ∉ l) (h : goodTrace name tr) :
    goodTrace name (l ++ tr) := by
  induction l with
  | nil => simpa using h
  | cons e l ih =>
      rw [List.cons_append]
      have he : e ≠ Ev.waitProxyAccessible := by
        intro heq
        exact hl (by simp [heq])
      exact goodTrace_cons name e (l ++ tr) he
        (ih (fun hm => hl (List.mem_cons_of_mem _ hm)))

lemma ensure_no_wait (e : EnsureEnv) :
    Ev.waitProxyAccessible ∉ (ensureEc2Capacity e).1 := by
  unfold ensureEc2Capacity
  split_ifs <;> simp

lemma loop_no_wait (ensF : Nat → EnsureEnv) (lF : Nat → Except String String)
    (name : String) :
    ∀ fuel retries,
      Ev.waitProxyAccessible ∉ (launchRetryLoop ensF lF name retries fuel).1 := by
  intro fuel
  induction fuel with
  | zero => intro r; simp [launchRetryLoop]
  | succ fuel ih =>
      intro r
      cases hens : (ensureEc2Capacity (ensF r)).2 with
      | some msg =>
          by_cases hc : containsResource msg = true ∧ r < maxRetries
          · rw [loop_step_ens_err_retry ensF lF name r fuel msg hens hc]
            simp [List.mem_append, ensure_no_wait (ensF r), ih (r + 1)]
          · rw [loop_step_ens_err_stop ensF lF name r fuel msg hens hc]
            exact ensure_no_wait (ensF r)
      | none =>
          by_cases hname : matchesServiceNameRegex name = true
          · cases hl : lF r with
            | ok arn =>
                rw [loop_step_ok ensF lF name r fuel arn hens hname hl]
                simp [List.mem_append, ensure_no_wait (ensF r)]
            | error msg =>
                by_cases hc : containsResource msg = true ∧ r < maxRetries
                · rw [loop_step_fail_retry ensF lF name r fuel msg hens hname hl hc]
                  simp [List.mem_append, ensure_no_wait (ensF r), ih (r + 1)]
                · rw [loop_step_fail_stop ensF lF name r fuel msg hens hname hl hc]
                  simp [List.mem_append, ensure_no_wait (ensF r)]
          · have hfalse : matchesServiceNameRegex name = false := by
              revert hname
              cases matchesServiceNameRegex name <;> simp
            rw [loop_step_bad_name ensF lF name r fuel hens hfalse]
            exact ensure_no_wait (ensF r)

lemma lockFree_no_wait (tr : List Ev) (h : Ev.waitProxyAccessible ∉ tr) :
    ∀ b, lockFreeAtReachabilityWait tr b = true := by
  induction tr with
  | nil => intro b; rfl
  | cons e tr ih =>
      intro b
      have hnw : Ev.waitProxyAccessible ∉ tr := fun hm => h (List.mem_cons_of_mem _ hm)
      have hne : e ≠ Ev.waitProxyAccessible := by
        intro heq
        exact h (by simp [heq])
      cases e with
      | lockAcquire k => exact ih hnw true
      | lockRelease k => exact ih hnw false
      | waitProxyAccessible => exact absurd rfl hne
      | findTasks => exact ih hnw b
      | checkAccessible ok => exact ih hnw b
      | setDesiredCapacity n => exact ih hnw b
      | waitInstanceJoin => exact ih hnw b
      | runServiceTask n => exact ih hnw b
      | runProxyTask n ip => exact ih hnw b
      | waitTaskRunning c => exact ih hnw b
      | sleepMs ms => exact ih hnw b

lemma lockFree_release_wait_end (name : String) :
    ∀ (pre : List Ev), Ev.waitProxyAccessible ∉ pre → ∀ b,
      lockFreeAtReachabilityWait
        (pre ++ [Ev.lockRelease name, Ev.waitProxyAccessible]) b = true := by
  intro pre
  induction pre with
  | nil => intro _ b; rfl
  | cons e pre ih =>
      intro h b
      have hnw : Ev.waitProxyAccessible ∉ pre := fun hm => h (List.mem_cons_of_mem _ hm)
      have hne : e ≠ Ev.waitProxyAccessible := by
        intro heq
        exact h (by simp [heq])
      rw [List.cons_append]
      cases e with
      | lockAcquire k => exact ih hnw true
      | lockRelease k => exact ih hnw false
      | waitProxyAccessible => exact absurd rfl hne
      | findTasks => exact ih hnw b
      | checkAccessible ok => exact ih hnw b
      | setDesiredCapacity n => exact ih hnw b
      | waitInstanceJoin => exact ih hnw b
      | runServiceTask n => exact ih hnw b
      | runProxyTask n ip => exact ih hnw b
      | waitTaskRunning c => exact ih hnw b
      | sleepMs ms => exact ih hnw b

/-- The three facts carried up through the locked phases: the trace is good,
an error outcome never reached the wait, and a trace that reached the wait
has a ready response with `isAccessible: true`. -/
def PhaseOk (name : String) (p : List Ev × Except String ApiResponse) : Prop :=
  goodTrace name p.1 ∧
  (∀ msg, p.2 = Except.error msg → Ev.waitProxyAccessible ∉ p.1) ∧
  (Ev.waitProxyAccessible ∈ p.1 →
    ∃ resp, p.2 = Except.ok resp ∧ resp.status = "ready" ∧
      resp.httpStatus = 200 ∧ resp.isAccessible = some true)

lemma PhaseOk_no_wait (name : String) (p : List Ev × Except String ApiResponse)
    (h : Ev.waitProxyAccessible ∉ p.1) : PhaseOk name p :=
  ⟨Or.inl h, fun _ _ => h, fun hm => absurd hm h⟩

lemma PhaseOk_cons_findTasks (name : String) (p : List Ev × Except String ApiResponse)
    (h : PhaseOk name p) : PhaseOk name (Ev.findTasks :: p.1, p.2) := by
  obtain ⟨g, e, w⟩ := h
  refine ⟨goodTrace_cons name Ev.findTasks p.1 (by simp) g, ?_, ?_⟩
  · intro msg hmsg
    have hnw := e msg hmsg
    simp only [List.mem_cons]
    rintro (h2 | h2)
    · exact Ev.noConfusion h2
    · exact hnw h2
  · intro hmem
    apply w
    rcases List.mem_cons.mp hmem with h2 | h2
    · exact absurd h2 (by simp)
    · exact h2

lemma proxyPhase_ok (domain name : String) (env : RouteEnv) (svcArn ip : String) :
    PhaseOk name (proxyPhase domain name env svcArn ip) := by
  cases hp1 : env.proxy1 with
  | some p =>
      simp only [proxyPhase, hp1, wfpa_ok]
      refine ⟨Or.inr ⟨[], rfl, by simp⟩, ?_, ?_⟩
      · intro msg hmsg
        simp at hmsg
      · intro _
        exact ⟨_, rfl, rfl, rfl, rfl⟩
  | none =>
      simp only [proxyPhase, hp1]
      split_ifs with h1 h2
      · exact PhaseOk_no_wait name _ (by simp)
      · exact PhaseOk_no_wait name _ (by simp)
      · cases hlp : env.launchProxy with
        | error msg => exact PhaseOk_no_wait name _ (by simp)
        | ok parn =>
            cases hwp : env.waitProxy with
            | error msg => exact PhaseOk_no_wait name _ (by simp)
            | ok t =>
                simp only [wfpa_ok]
                refine ⟨Or.inr ⟨[Ev.runProxyTask name ip, Ev.waitTaskRunning "proxy"],
                  rfl, by simp⟩, ?_, ?_⟩
                · intro msg hmsg
                  simp at hmsg
                · intro _
                  exact ⟨_, rfl, rfl, rfl, rfl⟩

lemma launchServicePhase_ok (domain name : String) (env : RouteEnv) :
    PhaseOk name (launchServicePhase domain name env) := by
  have hnw := loop_no_wait env.ensureEnvF env.launchF name (maxRetries + 1) 0
  cases hlp2 : (launchRetryLoop env.ensureEnvF env.launchF name 0 (maxRetries + 1)).2 with
  | error msg =>
      simp only [launchServicePhase, hlp2]
      exact PhaseOk_no_wait name _ hnw
  | ok arn =>
      cases hws : env.waitService with
      | error msg =>
          simp only [launchServicePhase, hlp2, hws]
          exact PhaseOk_no_wait name _ (by simp [List.mem_append, hnw])
      | ok ti =>
          cases hip : ti.privateIp with
          | none =>
              simp only [launchServicePhase, hlp2, hws, hip]
              exact PhaseOk_no_wait name _ (by simp [List.mem_append, hnw])
          | some ip =>
              simp only [launchServicePhase, hlp2, hws, hip]
              obtain ⟨g, e, w⟩ := proxyPhase_ok domain name env ti.arn ip
              have hpre : Ev.waitProxyAccessible ∉
                  (launchRetryLoop env.ensureEnvF env.launchF name 0 (maxRetries + 1)).1 ++
                    [Ev.waitTaskRunning "service"] := by
                simp [List.mem_append, hnw]
              refine ⟨goodTrace_append_left name _ _ hpre g, ?_, ?_⟩
              · intro msg hmsg
                have hnp := e msg hmsg
                simp only [List.mem_append]
                rintro ((h2 | h2) | h2)
                · exact hnw h2
                · simp at h2
                · exact hnp h2
              · intro hmem
                apply w
                rcases List.mem_append.mp hmem with hm | hm
                · exact absurd hm hpre
                · exact hm

lemma servicePhase_ok (domain name : String) (env : RouteEnv) :
    PhaseOk name (servicePhase domain name env) := by
  cases hs1 : env.service1 with
  | some ti =>
      cases hip : ti.privateIp with
      | some sip =>
          simp only [servicePhase, hs1, hip]
          exact proxyPhase_ok domain name env ti.arn sip
      | none =>
          simp only [servicePhase, hs1, hip]
          exact launchServicePhase_ok domain name env
  | none =>
      simp only [servicePhase, hs1]
      exact launchServicePhase_ok domain name env

lemma lockedSection_ok (domain name : String) (env : RouteEnv) :
    PhaseOk name (lockedSection domain name env) := by
  cases hp1 : env.proxy1 with
  | some p =>
      cases hs1 : env.service1 with
      | some s =>
          cases hip : s.privateIp with
          | some sip =>
              simp only [lockedSection, hp1, hs1, hip]
              exact PhaseOk_no_wait name _ (by simp)
          | none =>
              simp only [lockedSection, hp1, hs1, hip]
              exact PhaseOk_cons_findTasks name _ (servicePhase_ok domain name env)
      | none =>
          simp only [lockedSection, hp1, hs1]
          exact PhaseOk_cons_findTasks name _ (servicePhase_ok domain name env)
  | none =>
      simp only [lockedSection, hp1]
      exact PhaseOk_cons_findTasks name _ (servicePhase_ok domain name env)

lemma lockPhase_ok (domain name : String) (env : RouteEnv) (preEvs : List Ev)
    (hpre : Ev.waitProxyAccessible ∉ preEvs) :
    goodTrace name (lockPhase domain name env preEvs).1 ∧
    (Ev.waitProxyAccessible ∈ (lockPhase domain name env preEvs).1 →
      (lockPhase domain name env preEvs).2.status = "ready" ∧
      (lockPhase domain name env preEvs).2.httpStatus = 200 ∧
      (lockPhase domain name env preEvs).2.isAccessible = some true) := by
  by_cases hlg : env.lockGranted = false
  · simp only [lockPhase, if_pos hlg]
    refine ⟨Or.inl (by simp [List.mem_append, hpre]), ?_⟩
    intro hmem
    exact absurd hmem (by simp [List.mem_append, hpre])
  · simp only [lockPhase, if_neg hlg]
    obtain ⟨g, e, w⟩ := lockedSection_ok domain name env
    cases hls : (lockedSection domain name env).2 with
    | ok resp =>
        have hpre2 : Ev.waitProxyAccessible ∉ preEvs ++ [Ev.lockAcquire name] := by
          simp [List.mem_append, hpre]
        refine ⟨goodTrace_append_left name _ _ hpre2 g, ?_⟩
        intro hmem
        have hm2 : Ev.waitProxyAccessible ∈ (lockedSection domain name env).1 := by
          rcases List.mem_append.mp hmem with hm | hm
          · exact absurd hm hpre2
          · exact hm
        obtain ⟨resp2, hr2, hst, hht, hia⟩ := w hm2
        rw [hls] at hr2
        obtain rfl : resp = resp2 := Except.ok.inj hr2
        exact ⟨hst, hht, hia⟩
    | error msg =>
        have hnwl := e msg hls
        have hall : Ev.waitProxyAccessible ∉
            preEvs ++ [Ev.lockAcquire name] ++ (lockedSection domain name env).1 ++
              [Ev.lockRelease name, Ev.lockRelease name] := by
          simp [List.mem_append, hpre, hnwl]
        exact ⟨Or.inl hall, fun hmem => absurd hmem hall⟩

lemma GETres_ok (domain name : String) (checkStatus : Bool) (env : RouteEnv) :
    goodTrace name (GETres domain name checkStatus env).1 ∧
    (Ev.waitProxyAccessible ∈ (GETres domain name checkStatus env).1 →
      (GETres domain name checkStatus env).2.status = "ready" ∧
      (GETres domain name checkStatus env).2.httpStatus = 200 ∧
      (GETres domain name checkStatus env).2.isAccessible = some true) := by
  cases hv : validateServiceName name with
  | some msg =>
      simp only [GETres, hv]
      exact ⟨Or.inl (by simp), fun h => absurd h (by simp)⟩
  | none =>
      simp only [GETres, hv]
      by_cases hcs : checkStatus = true
      · simp only [if_pos hcs]
        by_cases hrun : statusRunningB env.proxy0 && serviceRunningB env.service0
        · simp only [if_pos hrun]
          exact ⟨Or.inl (by simp), fun h => absurd h (by simp)⟩
        · simp only [if_neg hrun]
          exact ⟨Or.inl (by simp), fun h => absurd h (by simp)⟩
      · simp only [if_neg hcs]
        by_cases hrun : statusRunningB env.proxy0 && serviceRunningB env.service0
        · simp only [if_pos hrun]
          by_cases hacc : env.accessible0 = true
          · simp only [if_pos hacc]
            exact ⟨Or.inl (by simp), fun h => absurd h (by simp)⟩
          · simp only [if_neg hacc]
            exact lockPhase_ok domain name env _ (by simp)
        · simp only [if_neg hrun]
          exact lockPhase_ok domain name env _ (by simp)

/-- C6: in every invocation, the launch lock is never held while the
external reachability polling runs — the trace scan confirms the lock is
free at every reachability-wait event — and whenever the reachability wait
occurs at all, the trace ends with the lock release immediately followed by
the wait (release strictly before polling, right after both endpoints are
confirmed running). -/
theorem lock_released_before_reachability (domain name : String) (checkStatus : Bool)
    (env : RouteEnv) :
    lockFreeAtReachabilityWait (GETres domain name checkStatus env).1 false = true ∧
    (Ev.waitProxyAccessible ∈ (GETres domain name checkStatus env).1 →
      ∃ pre, (GETres domain name checkStatus env).1 =
        pre ++ [Ev.lockRelease name, Ev.waitProxyAccessible]) := by
  obtain ⟨g, _⟩ := GETres_ok domain name checkStatus env
  rcases g with h | ⟨pre, hpre, hnw⟩
  · exact ⟨lockFree_no_wait _ h false, fun hm => absurd hm h⟩
  · refine ⟨?_, fun _ => ⟨pre, hpre⟩⟩
    rw [hpre]
    exact lockFree_release_wait_end name pre hnw false

/-- The launch-path oracle used by the C6 and C10 witnesses: nothing exists
yet, the lock is granted, every provisioning call succeeds, but external
reachability is never observed within the 90-second window. -/
def launchRouteEnv : RouteEnv where
  proxy0 := none
  service0 := none
  accessible0 := false
  lockGranted := true
  proxy1 := none
  service1 := none
  accessible1 := false
  ensureEnvF := fun _ => ⟨[⟨1024, 2048⟩], 1, 3, true⟩
  launchF := fun _ => Except.ok "svc-arn"
  waitService := Except.ok ⟨"svc-arn", "RUNNING", some "10.0.1.5"⟩
  launchProxy := Except.ok "proxy-arn"
  waitProxy := Except.ok ⟨"proxy-arn", "RUNNING", none⟩
  proxyBecameAccessible := false

/-- Witness for C6: a full launch run releases the lock right before the
reachability wait. -/
theorem lock_released_before_reachability_witness :
    lockFreeAtReachabilityWait (GETres "example.com" "demo" false launchRouteEnv).1 false
      = true ∧
    ∃ pre, (GETres "example.com" "demo" false launchRouteEnv).1 =
      pre ++ [Ev.lockRelease "demo", Ev.waitProxyAccessible] :=
  ⟨(lock_released_before_reachability "example.com" "demo" false launchRouteEnv).1,
   (lock_released_before_reachability "example.com" "demo" false launchRouteEnv).2
     (by decide)⟩

/-- C10: the final reachability wait never propagates its timeout — it
returns success for every outcome, observed or not — and every invocation
that reaches the reachability wait answers status "ready", HTTP 200, with
`isAccessible` unconditionally `true`, even when reachability was never
observed. -/
theorem reachability_timeout_swallowed (domain name : String) (checkStatus : Bool)
    (env : RouteEnv) :
    (∀ b, waitForProxyAccessible b = Except.ok ()) ∧
    (Ev.waitProxyAccessible ∈ (GETres domain name checkStatus env).1 →
      (GETres domain name checkStatus env).2.status = "ready" ∧
      (GETres domain name checkStatus env).2.httpStatus = 200 ∧
      (GETres domain name checkStatus env).2.isAccessible = some true) :=
  ⟨wfpa_ok, (GETres_ok domain name checkStatus env).2⟩

/-- Witness for C10: the launch run whose proxy never became reachable still
answers ready with `isAccessible: true`. -/
theorem reachability_timeout_swallowed_witness :
    (GETres "example.com" "demo" false launchRouteEnv).2.status = "ready" ∧
    (GETres "example.com" "demo" false launchRouteEnv).2.httpStatus = 200 ∧
    (GETres "example.com" "demo" false launchRouteEnv).2.isAccessible = some true :=
  (reachability_timeout_swallowed "example.com" "demo" false launchRouteEnv).2 (by decide)

end STZ
